import Mathlib

/-!
Verification of the conversation-orchestration pattern in
`examples/reasoning_function_calls.ipynb`.

The notebook's reusable logic is:
* `invoke_functions_from_response` — walk the response output items in
  order; for each `function_call` item look up the tool by name in
  `tool_mapping`, parse its JSON arguments and invoke it, converting a
  missing tool, a parse failure or a raised exception into an error
  string; append one `function_call_output` per call, carrying the
  original `call_id`.
* the manual conversation orchestration loop — per remote response,
  partition output items into `reasoning` / `function_call` / `message`
  groups (preserving relative order), extend the conversation with the
  reasoning items, then the (call, output) pairs interleaved in call
  order, then the message items, and stop the turn when the response
  contains zero function calls, accumulating `usage.total_tokens` of
  every response received.

The embedding is parametric in the type `α` of parsed tool arguments:
`json.loads` is modelled as a fallible parse `String → Except String α`
and each registered tool as `α → Except String String` (the `Except`
error channel models a raised Python exception caught by the notebook's
`try`/`except` block).
-/

/-- A `function_call` output item of a remote response
(`ResponseFunctionToolCall`): `call_id`, tool `name`, raw `arguments`. -/
structure ToolCallItem where
  call_id : String
  name : String
  arguments : String
deriving DecidableEq, Repr

/-- A `reasoning` output item of a remote response. -/
structure ReasoningItem where
  id : String
  summary : List String
deriving DecidableEq, Repr

/-- A `message` output item of a remote response. -/
structure MessageItem where
  id : String
  content : String
deriving DecidableEq, Repr

/-- One typed output item of a remote response, tagged as in the
notebook's checks of `response_item.type`. -/
inductive ResponseItem where
  | reasoning (r : ReasoningItem)
  | function_call (fc : ToolCallItem)
  | message (m : MessageItem)
deriving DecidableEq, Repr

/-- The usage metrics of a response; only `total_tokens` is read by the
orchestration loop. -/
structure Usage where
  total_tokens : Nat
deriving DecidableEq, Repr

/-- A remote response: an ordered list of output items plus usage. -/
structure Response where
  output : List ResponseItem
  usage : Usage
deriving DecidableEq, Repr

/-- A `function_call_output` conversation item (the ToolResult):
`call_id` maps back to the original function call, `output` is the tool
output string. -/
structure FunctionCallOutput where
  call_id : String
  output : String
deriving DecidableEq, Repr

/-- An item of the manually orchestrated conversation list. -/
inductive ConversationItem where
  | user (content : String)
  | reasoning (r : ReasoningItem)
  | function_call (fc : ToolCallItem)
  | function_call_output (o : FunctionCallOutput)
  | message (m : MessageItem)
deriving DecidableEq, Repr

/-- The tool-execution environment: `parseArgs` models `json.loads`
(which may raise), `tool_mapping` models the dict from tool name to the
implementing callable (which may raise; the `Except` error channel is
the caught exception rendered as a string). -/
structure ToolEnv (α : Type) where
  parseArgs : String → Except String α
  tool_mapping : List (String × (α → Except String String))

/-- The body of the notebook's per-call logic inside
`invoke_functions_from_response`: look up the tool, parse the
arguments, invoke; a missing tool yields the "No tool registered" error
output, a parse failure or a raising tool yields the "Error executing
function call" output; in every case exactly one
`function_call_output` with the original `call_id` is produced. -/
def executeToolCall {α : Type} (env : ToolEnv α) (fc : ToolCallItem) :
    FunctionCallOutput :=
  { call_id := fc.call_id
    output :=
      match env.tool_mapping.lookup fc.name with
      | some target_tool =>
        match env.parseArgs fc.arguments with
        | Except.ok arguments =>
          match target_tool arguments with
          | Except.ok tool_output => tool_output
          | Except.error e =>
              "Error executing function call: " ++ fc.name ++ ": " ++ e
        | Except.error e =>
            "Error executing function call: " ++ fc.name ++ ": " ++ e
      | none => "ERROR - No tool registered for function call: " ++ fc.name }

/-- `invoke_functions_from_response`: extract all function calls from
the response in order and execute them one at a time, returning the
list of `function_call_output` messages to be added to the
conversation history. -/
def invoke_functions_from_response {α : Type} (env : ToolEnv α)
    (response : Response) : List FunctionCallOutput :=
  response.output.filterMap fun response_item =>
    match response_item with
    | ResponseItem.function_call fc => some (executeToolCall env fc)
    | _ => none

/-- The `reasoning`-tagged output items of a response, in order
(the notebook's `[rx for rx in response.output if rx.type == 'reasoning']`). -/
def reasoningItems (response : Response) : List ReasoningItem :=
  response.output.filterMap fun rx =>
    match rx with
    | ResponseItem.reasoning r => some r
    | _ => none

/-- The `function_call`-tagged output items of a response, in order. -/
def functionCalls (response : Response) : List ToolCallItem :=
  response.output.filterMap fun rx =>
    match rx with
    | ResponseItem.function_call fc => some fc
    | _ => none

/-- The `message`-tagged output items of a response, in order. -/
def messageItems (response : Response) : List MessageItem :=
  response.output.filterMap fun rx =>
    match rx with
    | ResponseItem.message m => some m
    | _ => none

/-- The SDK's `response.output_text` convenience attribute: the
concatenated text of the message items. -/
def output_text (response : Response) : String :=
  String.join ((messageItems response).map (fun m => m.content))

/-- The notebook's interleaving
`[val for pair in zip(function_calls, function_outputs) for val in pair]`,
producing conversation items. -/
def interleavePairs (function_calls : List ToolCallItem)
    (function_outputs : List FunctionCallOutput) : List ConversationItem :=
  (function_calls.zip function_outputs).flatMap fun p =>
    [ConversationItem.function_call p.1, ConversationItem.function_call_output p.2]

/-- One iteration of the manual orchestration `while` loop acting on
the conversation list, given the response just received: extend with
the reasoning items (if any), then the interleaved
(function_call, function_call_output) pairs (if any), then the message
items (if any). -/
def processResponseCycle {α : Type} (env : ToolEnv α)
    (conversation : List ConversationItem) (response : Response) :
    List ConversationItem :=
  let reasoning := reasoningItems response
  let function_calls := functionCalls response
  let messages := messageItems response
  let conv1 :=
    if reasoning.length > 0 then
      conversation ++ reasoning.map ConversationItem.reasoning
    else conversation
  let conv2 :=
    if function_calls.length > 0 then
      conv1 ++ interleavePairs function_calls
        (invoke_functions_from_response env response)
    else conv1
  if messages.length > 0 then
    conv2 ++ messages.map ConversationItem.message
  else conv2

/-- The result of running the response loop for one user message. -/
structure TurnResult where
  conversation : List ConversationItem
  finalText : Option String
  remaining : List Response
  tokens : Nat
deriving Repr

/-- The manual orchestration response loop for one turn. The remote
service is modelled as the list of responses it returns to successive
requests: each iteration consumes one response, adds its
`usage.total_tokens`, runs one processing cycle, and breaks (returning
the response's accumulated message text) exactly when the response
contained zero function calls. An exhausted response list models the
remote request itself failing (no `finalText`). -/
def runTurn {α : Type} (env : ToolEnv α)
    (conversation : List ConversationItem) :
    List Response → TurnResult
  | [] => ⟨conversation, none, [], 0⟩
  | response :: rest =>
    let conv' := processResponseCycle env conversation response
    if (functionCalls response).length = 0 then
      ⟨conv', some (output_text response), rest, response.usage.total_tokens⟩
    else
      let r := runTurn env conv' rest
      ⟨r.conversation, r.finalText, r.remaining,
        response.usage.total_tokens + r.tokens⟩

/-- The result of the outer loop over user messages. -/
structure RunResult where
  conversation : List ConversationItem
  remaining : List Response
  total_tokens_used : Nat
deriving Repr

/-- The notebook's outer `for message in user_messages` loop: append
the user message to the conversation, run the response loop for the
turn, and thread the `total_tokens_used` accumulator. -/
def runConversation {α : Type} (env : ToolEnv α) :
    List String → List ConversationItem → List Response → Nat → RunResult
  | [], conversation, responses, total_tokens_used =>
      ⟨conversation, responses, total_tokens_used⟩
  | message :: rest, conversation, responses, total_tokens_used =>
      let t := runTurn env (conversation ++ [ConversationItem.user message])
        responses
      runConversation env rest t.conversation t.remaining
        (total_tokens_used + t.tokens)

/-- Substring containment, used to state that an output string carries
an identifiable marker. -/
def containsSub (s pat : String) : Prop :=
  ∃ pre post : String, s = pre ++ pat ++ post

/-- Bool test: is this conversation item a `function_call_output`
carrying the given `call_id`? -/
def isOutputFor (cid : String) : ConversationItem → Bool
  | ConversationItem.function_call_output o => o.call_id == cid
  | _ => false

/-- Executing a tool call always preserves the original `call_id`. -/
theorem executeToolCall_call_id {α : Type} (env : ToolEnv α) (fc : ToolCallItem) :
    (executeToolCall env fc).call_id = fc.call_id := rfl

/-- Auxiliary: the filterMap performed by `invoke_functions_from_response`
is the execution map over the filterMap extracting the function calls. -/
theorem filterMapExec {α : Type} (env : ToolEnv α) (items : List ResponseItem) :
    (items.filterMap fun response_item =>
      match response_item with
      | ResponseItem.function_call fc => some (executeToolCall env fc)
      | _ => none)
    = (items.filterMap fun rx =>
      match rx with
      | ResponseItem.function_call fc => some fc
      | _ => none).map (executeToolCall env) := by
  induction items with
  | nil => rfl
  | cons item rest ih => cases item <;> simp [List.filterMap_cons, ih]

/-- `invoke_functions_from_response` is `executeToolCall` mapped over the
function calls of the response, in their original order. -/
theorem invoke_eq_map {α : Type} (env : ToolEnv α) (response : Response) :
    invoke_functions_from_response env response
      = (functionCalls response).map (executeToolCall env) := by
  unfold invoke_functions_from_response functionCalls
  exact filterMapExec env response.output

/-- One output is produced per function call. -/
theorem invoke_length {α : Type} (env : ToolEnv α) (response : Response) :
    (invoke_functions_from_response env response).length
      = (functionCalls response).length := by
  rw [invoke_eq_map, List.length_map]

/-- The `if`-guards of the orchestration cycle are inessential: the cycle
always equals the conversation followed by the mapped reasoning items, the
interleaved (call, output) pairs and the mapped message items. -/
theorem processCycle_eq {α : Type} (env : ToolEnv α)
    (conversation : List ConversationItem) (response : Response) :
    processResponseCycle env conversation response =
      conversation ++ (reasoningItems response).map ConversationItem.reasoning
        ++ interleavePairs (functionCalls response)
            (invoke_functions_from_response env response)
        ++ (messageItems response).map ConversationItem.message := by
  unfold processResponseCycle
  dsimp only
  split_ifs with h1 h2 h3 h4 h5 h6 h7 <;>
    simp_all [Nat.not_lt, Nat.le_zero, List.length_eq_zero, interleavePairs,
      List.append_assoc]

/-- Concrete fixture: a registered tool that succeeds
(mirrors `get_city_uuid` with a fixed output). -/
def sampleTool (_args : Unit) : Except String String :=
  Except.ok "London ID: abc123"

/-- Concrete fixture: a registered tool that raises. -/
def failTool (_args : Unit) : Except String String :=
  Except.error "boom"

/-- Concrete fixture environment: a JSON parse that only accepts the
literal empty object, and two registered tools. -/
def sampleEnv : ToolEnv Unit :=
  { parseArgs := fun s =>
      if s = "\x7b\x7d" then Except.ok () else Except.error "Expecting value"
    tool_mapping := [("get_city_uuid", sampleTool), ("fail_tool", failTool)] }

/-- Concrete fixture: a call to the registered, succeeding tool. -/
def sampleCall : ToolCallItem := ⟨"call_1", "get_city_uuid", "\x7b\x7d"⟩

/-- Concrete fixture: a call to an unregistered tool. -/
def unknownCall : ToolCallItem := ⟨"call_2", "unknown_tool", "\x7b\x7d"⟩

/-- Concrete fixture: a call to the registered, raising tool. -/
def failCall : ToolCallItem := ⟨"call_3", "fail_tool", "\x7b\x7d"⟩

/-- Concrete fixture: a call whose arguments do not parse. -/
def badArgsCall : ToolCallItem := ⟨"call_4", "get_city_uuid", "not json"⟩

/-- Concrete fixture reasoning item. -/
def sampleReasoning : ReasoningItem := ⟨"rs_1", ["thinking"]⟩

/-- Concrete fixture message item. -/
def sampleMessage : MessageItem := ⟨"msg_1", "done"⟩

/-- Concrete fixture response containing a reasoning item, four function
calls exercising every branch, and a message item. -/
def sampleResponse : Response :=
  ⟨[ResponseItem.reasoning sampleReasoning,
    ResponseItem.function_call sampleCall,
    ResponseItem.function_call unknownCall,
    ResponseItem.function_call failCall,
    ResponseItem.function_call badArgsCall,
    ResponseItem.message sampleMessage], ⟨198⟩⟩

/-- Concrete fixture response with no function calls (turn-final). -/
def finalResponse : Response :=
  ⟨[ResponseItem.message sampleMessage], ⟨89⟩⟩

/-- Reasoning items mapped into the conversation are never
`function_call_output` items. -/
theorem countP_isOutputFor_reasoning (cid : String) (l : List ReasoningItem) :
    (l.map ConversationItem.reasoning).countP (isOutputFor cid) = 0 := by
  induction l with
  | nil => rfl
  | cons r rs ih => simp [List.countP_cons, isOutputFor, ih]

/-- Message items mapped into the conversation are never
`function_call_output` items. -/
theorem countP_isOutputFor_message (cid : String) (l : List MessageItem) :
    (l.map ConversationItem.message).countP (isOutputFor cid) = 0 := by
  induction l with
  | nil => rfl
  | cons m ms ih => simp [List.countP_cons, isOutputFor, ih]

/-- Zipping a list with its own image under `f` pairs each element with
its image. -/
theorem zip_self_map {β γ : Type} (f : β → γ) (l : List β) :
    l.zip (l.map f) = l.map (fun a => (a, f a)) := by
  induction l with
  | nil => rfl
  | cons a t ih => simp [ih]

/-- In the interleaving of calls with their executed outputs, the number
of outputs carrying `cid` equals the number of calls whose `call_id` is
`cid`. -/
theorem countP_interleave {α : Type} (env : ToolEnv α) (cid : String)
    (fcs : List ToolCallItem) :
    (interleavePairs fcs (fcs.map (executeToolCall env))).countP (isOutputFor cid)
      = fcs.countP (fun c => c.call_id == cid) := by
  induction fcs with
  | nil => rfl
  | cons c cs ih =>
    simp only [interleavePairs, zip_self_map] at ih ⊢
    simp [List.countP_cons, List.countP_append, isOutputFor, ih,
      executeToolCall_call_id]

/-- With pairwise-distinct `call_id`s, a present `call_id` is carried by
exactly one call. -/
theorem countP_callid_eq_one (cid : String) :
    ∀ fcs : List ToolCallItem,
      ((fcs.map fun c => c.call_id).Nodup) →
      cid ∈ fcs.map (fun c => c.call_id) →
      fcs.countP (fun c => c.call_id == cid) = 1 := by
  intro fcs
  induction fcs with
  | nil => intro _ h; cases h
  | cons c cs ih =>
    intro hnd hmem
    simp only [List.map_cons, List.nodup_cons] at hnd
    rcases List.mem_cons.mp hmem with heq | htail
    · subst heq
      simp only [List.countP_cons, beq_self_eq_true, if_pos]
      have hz : cs.countP (fun x => x.call_id == c.call_id) = 0 := by
        apply List.countP_eq_zero.mpr
        intro x hx hbx
        exact hnd.1 (by
          have : x.call_id = c.call_id := by simpa using hbx
          rw [← this]
          exact List.mem_map_of_mem _ hx)
      simp [hz]
    · have hne : ¬(c.call_id == cid) = true := by
        intro hb
        have : c.call_id = cid := by simpa using hb
        exact hnd.1 (this ▸ htail)
      simp [List.countP_cons, hne, ih hnd.2 htail]

/-- C1: for every function call item of the response (whose call_ids are
pairwise distinct), exactly one `function_call_output` carrying that
call_id is appended to the conversation by the processing cycle — before
the next remote request is issued — whether the tool is registered,
unregistered, or raises during execution. -/
theorem roundtrip_completeness {α : Type} (env : ToolEnv α)
    (conversation : List ConversationItem) (response : Response)
    (hnodup : ((functionCalls response).map fun c => c.call_id).Nodup)
    (fc : ToolCallItem) (hmem : fc ∈ functionCalls response) :
    ((processResponseCycle env conversation response).drop
        conversation.length).countP (isOutputFor fc.call_id) = 1 := by
  rw [processCycle_eq, List.append_assoc, List.append_assoc,
    List.drop_left, List.countP_append, List.countP_append,
    countP_isOutputFor_reasoning, countP_isOutputFor_message,
    invoke_eq_map, countP_interleave]
  have h1 := countP_callid_eq_one fc.call_id (functionCalls response) hnodup
    (List.mem_map_of_mem _ hmem)
  omega

/-- Witness for C1 at the concrete fixtures. -/
theorem roundtrip_completeness_witness :
    ((functionCalls sampleResponse).map fun c => c.call_id).Nodup ∧
    sampleCall ∈ functionCalls sampleResponse ∧
    ((processResponseCycle sampleEnv [] sampleResponse).drop
        ([] : List ConversationItem).length).countP
      (isOutputFor sampleCall.call_id) = 1 :=
  ⟨by decide, by decide,
    roundtrip_completeness sampleEnv [] sampleResponse (by decide)
      sampleCall (by decide)⟩

/-- C6: the processing cycle never removes or reorders the existing
conversation items; it only appends, and the appended block does not
depend on the existing conversation. -/
theorem cycle_only_appends {α : Type} (env : ToolEnv α)
    (conversation : List ConversationItem) (response : Response) :
    processResponseCycle env conversation response
      = conversation ++ processResponseCycle env [] response := by
  rw [processCycle_eq, processCycle_eq]
  simp [List.append_assoc]

/-- C4: the items appended by one processing cycle are, in order: all
reasoning items, then the (function_call, function_call_output) pairs
interleaved in original call order (each output carrying its call's
call_id), then all message items. -/
theorem append_order {α : Type} (env : ToolEnv α)
    (conversation : List ConversationItem) (response : Response) :
    ∃ pairs : List (ToolCallItem × FunctionCallOutput),
      processResponseCycle env conversation response
        = conversation
          ++ (reasoningItems response).map ConversationItem.reasoning
          ++ pairs.flatMap (fun p =>
              [ConversationItem.function_call p.1,
               ConversationItem.function_call_output p.2])
          ++ (messageItems response).map ConversationItem.message
      ∧ pairs.map Prod.fst = functionCalls response
      ∧ pairs.all (fun p => p.2.call_id == p.1.call_id) = true := by
  refine ⟨(functionCalls response).map (fun c => (c, executeToolCall env c)),
    ?_, ?_, ?_⟩
  · rw [processCycle_eq, invoke_eq_map]
    simp only [interleavePairs, zip_self_map]
  · rw [List.map_map]
    exact List.map_id _
  · refine List.all_eq_true.mpr ?_
    intro p hp
    simp only [List.mem_map] at hp
    obtain ⟨c, _, rfl⟩ := hp
    simp [executeToolCall_call_id]

/-- C2: a function call whose tool name is not registered produces a
`function_call_output` (appearing among the returned outputs, carrying
the original call_id) whose output string contains the
"No tool registered" marker; no exception reaches the caller (the
function is total and returns normally). -/
theorem unregistered_tool_result {α : Type} (env : ToolEnv α)
    (response : Response) (fc : ToolCallItem)
    (hmem : fc ∈ functionCalls response)
    (hno : env.tool_mapping.lookup fc.name = none) :
    executeToolCall env fc ∈ invoke_functions_from_response env response
    ∧ (executeToolCall env fc).call_id = fc.call_id
    ∧ containsSub (executeToolCall env fc).output "No tool registered" := by
  refine ⟨?_, rfl, ?_⟩
  · rw [invoke_eq_map]
    exact List.mem_map_of_mem _ hmem
  · refine ⟨"ERROR - ", " for function call: " ++ fc.name, ?_⟩
    show (executeToolCall env fc).output = _
    simp only [executeToolCall, hno]
    rw [← String.append_assoc]
    have h : ("ERROR - " ++ "No tool registered") ++ " for function call: "
        = "ERROR - No tool registered for function call: " := rfl
    rw [h]

/-- Witness for C2 at the concrete fixtures: `unknown_tool` is absent
from the registry. -/
theorem unregistered_tool_result_witness :
    unknownCall ∈ functionCalls sampleResponse
    ∧ sampleEnv.tool_mapping.lookup unknownCall.name = none
    ∧ (executeToolCall sampleEnv unknownCall
        ∈ invoke_functions_from_response sampleEnv sampleResponse
      ∧ (executeToolCall sampleEnv unknownCall).call_id = unknownCall.call_id
      ∧ containsSub (executeToolCall sampleEnv unknownCall).output
          "No tool registered") :=
  ⟨by decide, rfl,
    unregistered_tool_result sampleEnv sampleResponse unknownCall
      (by decide) rfl⟩

/-- C3: for a registered tool whose arguments fail to parse or whose
invocation raises, the produced `function_call_output` carries the
original call_id and an error-description string, no exception reaches
the caller, and every other tool call of the response is still
processed (one output per call). -/
theorem tool_error_swallowed {α : Type} (env : ToolEnv α)
    (response : Response) (fc : ToolCallItem)
    (hmem : fc ∈ functionCalls response)
    (target_tool : α → Except String String)
    (hreg : env.tool_mapping.lookup fc.name = some target_tool)
    (hfail : (∃ e, env.parseArgs fc.arguments = Except.error e)
      ∨ (∃ arguments e, env.parseArgs fc.arguments = Except.ok arguments
          ∧ target_tool arguments = Except.error e)) :
    executeToolCall env fc ∈ invoke_functions_from_response env response
    ∧ (executeToolCall env fc).call_id = fc.call_id
    ∧ (∃ rest, (executeToolCall env fc).output
        = "Error executing function call: " ++ rest)
    ∧ (invoke_functions_from_response env response).length
        = (functionCalls response).length := by
  refine ⟨?_, rfl, ?_, invoke_length env response⟩
  · rw [invoke_eq_map]
    exact List.mem_map_of_mem _ hmem
  · rcases hfail with ⟨e, he⟩ | ⟨arguments, e, hok, herr⟩
    · refine ⟨fc.name ++ ": " ++ e, ?_⟩
      show (executeToolCall env fc).output = _
      simp only [executeToolCall, hreg, he]
      simp only [String.append_assoc]
    · refine ⟨fc.name ++ ": " ++ e, ?_⟩
      show (executeToolCall env fc).output = _
      simp only [executeToolCall, hreg, hok, herr]
      simp only [String.append_assoc]

/-- Witness for C3 at the concrete fixtures: `fail_tool` raises. -/
theorem tool_error_swallowed_witness :
    failCall ∈ functionCalls sampleResponse
    ∧ sampleEnv.tool_mapping.lookup failCall.name = some failTool
    ∧ sampleEnv.parseArgs failCall.arguments = Except.ok ()
    ∧ failTool () = Except.error "boom"
    ∧ (executeToolCall sampleEnv failCall
        ∈ invoke_functions_from_response sampleEnv sampleResponse
      ∧ (executeToolCall sampleEnv failCall).call_id = failCall.call_id
      ∧ (invoke_functions_from_response sampleEnv sampleResponse).length
          = (functionCalls sampleResponse).length) :=
  ⟨by decide, rfl, rfl, rfl,
    (tool_error_swallowed sampleEnv sampleResponse failCall (by decide)
      failTool rfl (Or.inr ⟨(), "boom", rfl, rfl⟩)).1,
    (tool_error_swallowed sampleEnv sampleResponse failCall (by decide)
      failTool rfl (Or.inr ⟨(), "boom", rfl, rfl⟩)).2.1,
    (tool_error_swallowed sampleEnv sampleResponse failCall (by decide)
      failTool rfl (Or.inr ⟨(), "boom", rfl, rfl⟩)).2.2.2⟩

/-- C9: tool calls are resolved one at a time in response order: the
output list has one entry per function call, and its i-th entry is the
execution of the i-th function call, carrying that call's call_id. -/
theorem sequential_resolution {α : Type} (env : ToolEnv α)
    (response : Response) :
    (invoke_functions_from_response env response).length
      = (functionCalls response).length
    ∧ ∀ i : Nat, ∀ h1 : i < (invoke_functions_from_response env response).length,
        ∀ h2 : i < (functionCalls response).length,
        (invoke_functions_from_response env response).get ⟨i, h1⟩
            = executeToolCall env ((functionCalls response).get ⟨i, h2⟩)
        ∧ ((invoke_functions_from_response env response).get ⟨i, h1⟩).call_id
            = ((functionCalls response).get ⟨i, h2⟩).call_id := by
  refine ⟨invoke_length env response, ?_⟩
  intro i h1 h2
  have hmap := invoke_eq_map env response
  constructor
  · simp only [List.get_eq_getElem]
    simp only [hmap, List.getElem_map]
  · simp only [List.get_eq_getElem]
    simp only [hmap, List.getElem_map, executeToolCall_call_id]

/-- Witness for C9 at the concrete fixtures (first tool call). -/
theorem sequential_resolution_witness :
    (invoke_functions_from_response sampleEnv sampleResponse).length
      = (functionCalls sampleResponse).length
    ∧ ((invoke_functions_from_response sampleEnv sampleResponse).get
          ⟨0, by decide⟩
        = executeToolCall sampleEnv
            ((functionCalls sampleResponse).get ⟨0, by decide⟩)
      ∧ ((invoke_functions_from_response sampleEnv sampleResponse).get
          ⟨0, by decide⟩).call_id
        = ((functionCalls sampleResponse).get ⟨0, by decide⟩).call_id) :=
  ⟨(sequential_resolution sampleEnv sampleResponse).1,
   (sequential_resolution sampleEnv sampleResponse).2 0 (by decide) (by decide)⟩

/-- Concrete fixture: a response with neither function calls nor
message items (reasoning only). -/
def emptyResponse : Response := ⟨[ResponseItem.reasoning sampleReasoning], ⟨50⟩⟩

/-- C5: the turn terminates exactly at the first response containing
zero function calls: every earlier response (all containing function
calls) causes another remote round trip, none is skipped, and at the
first call-free response the accumulated message text is returned as
`finalText` with the rest of the stream untouched. -/
theorem turn_termination {α : Type} (env : ToolEnv α)
    (conversation : List ConversationItem)
    (busy : List Response) (final : Response) (rest : List Response) :
    (∀ r ∈ busy, (functionCalls r).length ≠ 0) →
    (functionCalls final).length = 0 →
    (runTurn env conversation (busy ++ final :: rest)).finalText
        = some (output_text final)
    ∧ (runTurn env conversation (busy ++ final :: rest)).remaining = rest := by
  induction busy generalizing conversation with
  | nil =>
    intro _ hfinal
    simp [runTurn, hfinal]
  | cons r rs ih =>
    intro hbusy hfinal
    have hr : (functionCalls r).length ≠ 0 := hbusy r (List.mem_cons_self r rs)
    have hrec := ih (processResponseCycle env conversation r)
      (fun x hx => hbusy x (List.mem_cons_of_mem r hx)) hfinal
    simp only [List.cons_append, runTurn, hr, if_false, ite_false]
    exact hrec

/-- Witness for C5 at the concrete fixtures: one tool-calling response
followed by a call-free final response. -/
theorem turn_termination_witness :
    (functionCalls sampleResponse).length ≠ 0
    ∧ (functionCalls finalResponse).length = 0
    ∧ ((runTurn sampleEnv [] ([sampleResponse] ++ finalResponse :: [])).finalText
        = some (output_text finalResponse)
      ∧ (runTurn sampleEnv []
          ([sampleResponse] ++ finalResponse :: [])).remaining = []) :=
  ⟨by decide, by decide,
    turn_termination sampleEnv [] [sampleResponse] finalResponse []
      (by decide) (by decide)⟩

/-- C7 counterexample: at a concrete response with neither function
calls nor message items, the loop terminates the turn normally
(returning the empty accumulated message text and issuing no further
request) — it does not surface any caller-visible anomaly, contrary to
the claim that an anomaly is surfaced rather than terminating. -/
theorem no_progress_counterexample :
    (functionCalls emptyResponse).length = 0
    ∧ (messageItems emptyResponse).length = 0
    ∧ (runTurn sampleEnv [] [emptyResponse]).finalText = some ""
    ∧ (runTurn sampleEnv [] [emptyResponse]).remaining = [] := by decide

/-- C7 amended: when a response contains neither function calls nor
message items, the loop neither retries nor surfaces an anomaly: it
terminates the turn at once, returning the empty accumulated message
text as `finalText` and leaving the rest of the response stream
unconsumed. -/
theorem no_progress_terminates {α : Type} (env : ToolEnv α)
    (conversation : List ConversationItem) (response : Response)
    (rest : List Response)
    (hfc : (functionCalls response).length = 0)
    (hmsg : messageItems response = []) :
    (runTurn env conversation (response :: rest)).finalText = some ""
    ∧ (runTurn env conversation (response :: rest)).remaining = rest := by
  have htext : output_text response = "" := by
    simp [output_text, hmsg, String.join]
  simp [runTurn, hfc, htext]

/-- Witness for the amended C7 at the concrete fixtures. -/
theorem no_progress_terminates_witness :
    (functionCalls emptyResponse).length = 0
    ∧ messageItems emptyResponse = []
    ∧ ((runTurn sampleEnv [] (emptyResponse :: [])).finalText = some ""
      ∧ (runTurn sampleEnv [] (emptyResponse :: [])).remaining = []) :=
  ⟨by decide, by decide,
    no_progress_terminates sampleEnv [] emptyResponse [] (by decide)
      (by decide)⟩

/-- C8: one processing cycle is a deterministic pure function of the
conversation log, the remote response and the registry's observable
behavior: two runs over environments with identical tool lookup and
identical argument parsing produce identical updated logs (hence
identical appended item sequences) — replaying the cycle against
unchanged inputs reproduces the same items. -/
theorem cycle_deterministic {α : Type} (env1 env2 : ToolEnv α)
    (conversation : List ConversationItem) (response : Response)
    (hlookup : ∀ n, env1.tool_mapping.lookup n = env2.tool_mapping.lookup n)
    (hparse : ∀ s, env1.parseArgs s = env2.parseArgs s) :
    processResponseCycle env1 conversation response
      = processResponseCycle env2 conversation response := by
  have hexec : ∀ fc, executeToolCall env1 fc = executeToolCall env2 fc := by
    intro fc
    unfold executeToolCall
    simp only [hlookup, hparse]
  rw [processCycle_eq, processCycle_eq, invoke_eq_map, invoke_eq_map,
    funext hexec]

/-- Concrete fixture: an alternative tool used only as a shadowed
registry entry. -/
def shadowTool (_args : Unit) : Except String String := Except.ok "shadow"

/-- Concrete fixture: an environment whose registry list differs from
`sampleEnv` by a shadowed duplicate entry, yet has identical lookup
behavior. -/
def shadowEnv : ToolEnv Unit :=
  { parseArgs := sampleEnv.parseArgs
    tool_mapping := sampleEnv.tool_mapping ++ [("get_city_uuid", shadowTool)] }

/-- The shadowed duplicate entry never changes the result of a lookup. -/
theorem shadow_lookup_eq (n : String) :
    shadowEnv.tool_mapping.lookup n = sampleEnv.tool_mapping.lookup n := by
  show List.lookup n
      [("get_city_uuid", sampleTool), ("fail_tool", failTool),
       ("get_city_uuid", shadowTool)]
    = List.lookup n [("get_city_uuid", sampleTool), ("fail_tool", failTool)]
  simp only [List.lookup]
  cases h1 : n == "get_city_uuid" <;> cases h2 : n == "fail_tool" <;>
    simp [h1, h2]

/-- Witness for C8: two observably identical environments (one with a
shadowed duplicate registry entry) yield the same updated log. -/
theorem cycle_deterministic_witness :
    processResponseCycle shadowEnv [] sampleResponse
      = processResponseCycle sampleEnv [] sampleResponse :=
  cycle_deterministic shadowEnv sampleEnv [] sampleResponse
    shadow_lookup_eq (fun _ => rfl)

/-- The response loop consumes a prefix of the response stream and its
token count is exactly the sum of `usage.total_tokens` over the
consumed responses. -/
theorem runTurn_tokens {α : Type} (env : ToolEnv α)
    (responses : List Response) :
    ∀ conversation : List ConversationItem,
      ∃ consumed : List Response,
        responses = consumed ++ (runTurn env conversation responses).remaining
        ∧ (runTurn env conversation responses).tokens
            = (consumed.map fun r => r.usage.total_tokens).sum := by
  induction responses with
  | nil =>
    intro conversation
    exact ⟨[], by simp [runTurn], by simp [runTurn]⟩
  | cons r rest ih =>
    intro conversation
    by_cases h : (functionCalls r).length = 0
    · refine ⟨[r], ?_, ?_⟩
      · simp [runTurn, h]
      · simp [runTurn, h]
    · obtain ⟨consumed, hc, ht⟩ := ih (processResponseCycle env conversation r)
      refine ⟨r :: consumed, ?_, ?_⟩
      · simp only [runTurn, h, if_false, ite_false, List.cons_append]
        exact congrArg (r :: ·) hc
      · simp only [runTurn, h, if_false, ite_false, List.map_cons, List.sum_cons]
        exact congrArg (r.usage.total_tokens + ·) ht

/-- C10: across the whole orchestration loop the token accumulator only
grows, and on finishing it has grown by exactly the sum of
`usage.total_tokens` over every remote response received during the run
(each consumed response counted once, including those of rounds that
required tool calls). -/
theorem total_tokens_accounting {α : Type} (env : ToolEnv α)
    (user_messages : List String) :
    ∀ (conversation : List ConversationItem) (responses : List Response)
      (acc : Nat),
      ∃ consumed : List Response,
        responses = consumed
          ++ (runConversation env user_messages conversation responses acc).remaining
        ∧ (runConversation env user_messages conversation responses
            acc).total_tokens_used
          = acc + (consumed.map fun r => r.usage.total_tokens).sum
        ∧ acc ≤ (runConversation env user_messages conversation responses
            acc).total_tokens_used := by
  induction user_messages with
  | nil =>
    intro conversation responses acc
    exact ⟨[], by simp [runConversation], by simp [runConversation],
      by simp [runConversation]⟩
  | cons m ms ih =>
    intro conversation responses acc
    obtain ⟨c1, hc1, ht1⟩ :=
      runTurn_tokens env responses (conversation ++ [ConversationItem.user m])
    obtain ⟨c2, hc2, ht2, hmono⟩ :=
      ih (runTurn env (conversation ++ [ConversationItem.user m])
            responses).conversation
        (runTurn env (conversation ++ [ConversationItem.user m])
            responses).remaining
        (acc + (runTurn env (conversation ++ [ConversationItem.user m])
            responses).tokens)
    refine ⟨c1 ++ c2, ?_, ?_, ?_⟩
    · show responses = _ ++ (runConversation env ms _ _ _).remaining
      rw [List.append_assoc, ← hc2]
      exact hc1
    · show (runConversation env ms _ _ _).total_tokens_used = _
      rw [ht2, ht1, List.map_append, List.sum_append]
      omega
    · show acc ≤ (runConversation env ms _ _ _).total_tokens_used
      exact le_trans (Nat.le_add_right acc _) hmono
